import Mathlib

/-!
Verification of the multi-agent conversation orchestrator of the
thinkers-chat backend.

The definitions below are shallow embeddings of the Python source:

* `backend/app/services/thinker.py` — the selection policy
  `_should_respond`, bubble splitting `_split_response_into_bubbles`,
  the streaming generator `generate_response_with_streaming_thinking`,
  the agent loop `_run_thinker_agent`, and the lifecycle routines
  `start_conversation_agents` / `stop_conversation_agents`.
* `backend/app/api/websocket.py` — `ConversationRoom`,
  `ConnectionManager` and the websocket endpoint connect handshake.

Python floats are modelled as rationals, Python sets as finite sets,
random draws and wall-clock-dependent tests as explicit inputs, and
async interleaving as an explicit schedule of the values read at each
pause-flag check.
-/

namespace ThinkersChat

/-! ## String helpers mirroring the Python primitives used by the core -/

/-- Python whitespace class for `str.strip` / `\s` (ASCII part). -/
def pyIsSpace (c : Char) : Bool :=
  c == ' ' || c == '\t' || c == '\n' || c == '\r' || c == '\x0b' || c == '\x0c'

/-- Python `str.strip()`: drop leading and trailing whitespace. -/
def pyStrip (s : String) : String :=
  ⟨((s.data.dropWhile pyIsSpace).reverse.dropWhile pyIsSpace).reverse⟩

/-- Python `str.lower()` (ASCII case folding). -/
def lowerStr (s : String) : String :=
  ⟨s.data.map Char.toLower⟩

/-- Does `p` start the list `l` (Python `str.startswith`)? -/
def listStarts : List Char → List Char → Bool
  | [], _ => true
  | _ :: _, [] => false
  | a :: as, b :: bs => a == b && listStarts as bs

/-- Does `needle` occur contiguously inside `hay` (Python `in` on strings)? -/
def occursIn (needle : List Char) : List Char → Bool
  | [] => needle.isEmpty
  | c :: rest => listStarts needle (c :: rest) || occursIn needle rest

/-- Python `needle in hay` for strings. -/
def strOccursIn (needle hay : String) : Bool :=
  occursIn needle.data hay.data

/-- Python `p.startswith` on strings. -/
def startsWithStr (p s : String) : Bool :=
  listStarts p.data s.data

/-! ## Messages and the selection policy (`thinker.py:_should_respond`) -/

/-- The fields of a persisted `Message` that the selection policy reads. -/
structure Message where
  sender_name : Option String
  content : String
deriving DecidableEq

/-- Embedding of `ThinkerService._should_respond`
(`backend/app/services/thinker.py`, lines 1202-1248).  The two
`random.random()` draws are passed in as `d1` (the forced-silence draw)
and `d2` (the final decision draw). -/
def should_respond (thinkerName : String) (messages : List Message)
    (last_response_count : ℤ) (consecutive_silence : ℕ) (d1 d2 : ℚ) : Bool :=
  if messages.isEmpty then false
  else
    let new_message_count : ℤ := (messages.length : ℤ) - last_response_count
    if new_message_count ≤ 0 then false
    else
      let last_messages := messages.drop (messages.length - 3)
      let was_addressed := last_messages.any
        (fun mg => strOccursIn (lowerStr thinkerName) (lowerStr mg.content))
      let p1 : ℚ := min (0.25 + (new_message_count : ℚ) * 0.12) 0.7
      let p2 : ℚ := if was_addressed then min (p1 + 0.5) 0.95 else p1
      let p3 : ℚ :=
        if 2 < consecutive_silence then min (p2 + (consecutive_silence : ℚ) * 0.1) 0.9 else p2
      let p4 : ℚ :=
        match messages.getLast? with
        | some ml => if ml.sender_name = some thinkerName then (0.05 : ℚ) else p3
        | none => p3
      if was_addressed = false ∧ d1 < (0.15 : ℚ) then false
      else decide (d2 < p4)

/-- Reference definition of the selection policy, written from the words
of the specification: false on an empty history or when
`len(messages) - last_response_count <= 0`; otherwise the probability is
`min(0.25 + new * 0.12, 0.7)`, raised by `0.5` capped at `0.95` when the
thinker name occurs case-insensitively in one of the last three
messages, raised by `consecutive_silence * 0.1` capped at `0.9` when
`consecutive_silence > 2`, forced to `0.05` when the most recent sender
is the thinker itself; unless addressed a first draw below `0.15`
forces silence, and otherwise the result is `d2 < probability`. -/
def should_respond_ref (thinkerName : String) (messages : List Message)
    (last_response_count : ℤ) (consecutive_silence : ℕ) (d1 d2 : ℚ) : Bool :=
  if messages.isEmpty ∨ (messages.length : ℤ) - last_response_count ≤ 0 then false
  else
    let addressed := (messages.drop (messages.length - 3)).any
      (fun mg => strOccursIn (lowerStr thinkerName) (lowerStr mg.content))
    let base : ℚ :=
      min (0.25 + (((messages.length : ℤ) - last_response_count : ℤ) : ℚ) * 0.12) 0.7
    let base : ℚ := if addressed then min (base + 0.5) 0.95 else base
    let base : ℚ :=
      if 2 < consecutive_silence then min (base + (consecutive_silence : ℚ) * 0.1) 0.9 else base
    let base : ℚ :=
      match messages.getLast? with
      | some ml => if ml.sender_name = some thinkerName then (0.05 : ℚ) else base
      | none => base
    if addressed = false ∧ d1 < (0.15 : ℚ) then false
    else decide (d2 < base)

/-! ## Bubble splitting (`thinker.py:_split_response_into_bubbles`) -/

/-- Does `c` end a sentence, per the regex class `[.!?]`? -/
def endsSentence (c : Char) : Bool :=
  c == '.' || c == '!' || c == '?'

/-- Embedding of Python `re.split(r"(?<=[.!?])\s+", text)`: cut at every
maximal run of whitespace whose preceding character is `.`, `!` or `?`,
consuming the whitespace.  `current` holds the running token reversed;
`skipping` is true while inside the whitespace run of a match. -/
def splitSentencesLoop : List Char → Bool → List Char → List String → List String
  | [], _, current, acc => acc ++ [⟨current.reverse⟩]
  | c :: rest, skipping, current, acc =>
    if skipping && pyIsSpace c then
      splitSentencesLoop rest true current acc
    else
      let boundary := pyIsSpace c &&
        (match current with
         | [] => false
         | d :: _ => endsSentence d)
      if boundary then
        splitSentencesLoop rest true [] (acc ++ [⟨current.reverse⟩])
      else
        splitSentencesLoop rest false (c :: current) acc

/-- Version of the sentence regex split applied to a string. -/
def splitSentences (text : String) : List String :=
  splitSentencesLoop text.data false [] []

/-- The discourse-transition openers that force a fresh bubble. -/
def transition_words : List String :=
  ["But ", "However,", "Although ", "On the other hand,", "That said,",
   "Nevertheless,", "Yet ", "Still,", "Though ", "Conversely,"]

/-- The sentence-accumulation loop of `_split_response_into_bubbles`:
push the current bubble when adding the next sentence would exceed
`target_size` or the sentence starts with a transition word. -/
def buildBubblesLoop (target_size : ℕ) : List String → List String → String → List String
  | [], acc, current => acc ++ (if current = "" then [] else [pyStrip current])
  | s0 :: rest, acc, current =>
    let s := pyStrip s0
    if s = "" then buildBubblesLoop target_size rest acc current
    else
      let tr := transition_words.any (fun tw => startsWithStr tw s)
      if current ≠ "" ∧ (target_size < current.length + s.length ∨ tr = true) then
        buildBubblesLoop target_size rest (acc ++ [pyStrip current]) s
      else
        buildBubblesLoop target_size rest acc (if current = "" then s else current ++ " " ++ s)

/-- The condition of the forced-split scan: `text[i] in ".!?" and
i + 1 < len(text) and text[i + 1] == " "`. -/
def forcedCond (chars : List Char) (i : ℕ) : Bool :=
  match chars.get? i, chars.get? (i + 1) with
  | some c, some c2 => endsSentence c && (c2 == ' ')
  | _, _ => false

/-- The forced split applied when sentence accumulation produced a single
bubble for text longer than 300 characters: cut at the first sentence
boundary at or past the midpoint. -/
def forceSplit (text : String) (bubbles : List String) : List String :=
  match ((List.range text.data.length).filter
      (fun i => decide (text.data.length / 2 ≤ i) && forcedCond text.data i)).head? with
  | some i => [pyStrip ⟨text.data.take (i + 1)⟩, pyStrip ⟨text.data.drop (i + 2)⟩]
  | none => bubbles

/-- Embedding of `ThinkerService._split_response_into_bubbles`
(`backend/app/services/thinker.py`, lines 567-653).  The call
`random.random()` is passed in as `strategy_roll` and the subsequent
`random.randint(...)` (whose bounds depend on the roll) as
`target_size`. -/
def split_response_into_bubbles (response_text : String)
    (strategy_roll : ℚ) (target_size : ℕ) : List String :=
  if response_text = "" then []
  else
    let text := pyStrip response_text
    if text.length < 60 then [text]
    else if strategy_roll < (0.25 : ℚ) ∧ text.length < 250 then [text]
    else
      let sentences := splitSentences text
      let bubbles := buildBubblesLoop target_size sentences [] ""
      let bubbles :=
        if bubbles.length = 1 ∧ 300 < text.length then forceSplit text bubbles else bubbles
      bubbles.filter (fun b => b ≠ "")

/-! ## The streaming generator and the responding branch of the agent loop

`_run_thinker_agent` (`thinker.py`, lines 870-1029) and
`generate_response_with_streaming_thinking` (lines 425-557) read the
shared pause flag at well-defined points: once before generation starts,
once per received stream event, once after generation returns, and twice
per bubble (before persisting it and again before broadcasting it).
The embedding threads a step counter that increments at every such read
and models the flag as a function `pauseAt` of that counter, so that a
flag flip at any interleaving point is an instance of some `pauseAt`.
The wall-clock throttle of thinking previews is the oracle `emitOk`, and
`_extract_thinking_display` (whose output the properties below do not
constrain) is the parameter `extract`. -/

/-- Events of the LLM stream that the generator reacts to. -/
inductive StreamEvent
  | thinkingDelta (s : String)
  | textDelta (s : String)
deriving DecidableEq

/-- Observable actions of one agent turn: persistence-adapter calls and
room broadcasts. -/
inductive Ev
  | typing
  | stoppedTyping
  | thinking (s : String)
  | persist (s : String)
  | message (s : String)
deriving DecidableEq

/-- Conversation content, as opposed to typing-indicator bookkeeping:
persisted bubbles, broadcast message bubbles, thinking previews. -/
def isContentEv : Ev → Bool
  | .thinking _ => true
  | .persist _ => true
  | .message _ => true
  | _ => false

/-- The streaming loop of `generate_response_with_streaming_thinking`
(`thinker.py`, lines 503-541).  Each stream event begins with a read of
the pause flag; while paused the stream keeps being consumed but nothing
is accumulated or broadcast, and a single stopped-typing notice is sent
on the first paused event.  Returns the trace (tagged with the counter
value at the read preceding each action), the accumulated response text,
and the counter after the stream. -/
def runStream (pauseAt emitOk : ℕ → Bool) (extract : String → String) :
    List StreamEvent → ℕ → Bool → String → String → List (ℕ × Ev) × String × ℕ
  | [], step, _, _, resp => ([], resp, step)
  | ev :: rest, step, pausedDuring, think, resp =>
    if pauseAt step then
      let tail := runStream pauseAt emitOk extract rest (step + 1) true think resp
      ((if pausedDuring then [] else [(step, Ev.stoppedTyping)]) ++ tail.1, tail.2)
    else
      match ev with
      | .thinkingDelta t =>
        let think' := think ++ t
        let emitted :=
          if emitOk step then
            (if extract think' = "" then [] else [(step, Ev.thinking (extract think'))])
          else []
        let tail := runStream pauseAt emitOk extract rest (step + 1) pausedDuring think' resp
        (emitted ++ tail.1, tail.2)
      | .textDelta t =>
        runStream pauseAt emitOk extract rest (step + 1) pausedDuring think (resp ++ t)

/-- The per-bubble send loop of `_run_thinker_agent` (`thinker.py`,
lines 974-1013): for each bubble the pause flag is read immediately
before persisting and again between persisting and broadcasting; a true
read sends a stopped-typing notice and breaks the loop. -/
def runBubbles (pauseAt : ℕ → Bool) : List String → ℕ → List (ℕ × Ev)
  | [], _ => []
  | b :: rest, step =>
    if pauseAt step then [(step, Ev.stoppedTyping)]
    else
      (step, Ev.persist b) ::
        (if pauseAt (step + 1) then [(step + 1, Ev.stoppedTyping)]
         else [(step + 1, Ev.stoppedTyping), (step + 1, Ev.message b)] ++
           (if rest.isEmpty then [] else [(step + 1, Ev.typing)]) ++
           runBubbles pauseAt rest (step + 2))

/-- One responding turn of `_run_thinker_agent` (`thinker.py`,
lines 936-1018), normal streaming branch: typing notice, pause check
before generation (read 0), the streaming loop (reads `1..n`), pause
check after generation returns (read `n+1`), then the bubble loop over
`_split_response_into_bubbles` of the stripped response. -/
def runTurn (pauseAt emitOk : ℕ → Bool) (extract : String → String)
    (strategy_roll : ℚ) (target_size : ℕ) (events : List StreamEvent) : List (ℕ × Ev) :=
  if pauseAt 0 then [(0, Ev.typing), (0, Ev.stoppedTyping)]
  else
    let st := runStream pauseAt emitOk extract events 1 false "" ""
    let resp := pyStrip st.2.1
    let s1 := st.2.2
    (0, Ev.typing) :: st.1 ++
      (if pauseAt s1 then [(s1, Ev.stoppedTyping)]
       else if resp = "" then [(s1, Ev.stoppedTyping)]
       else runBubbles pauseAt (split_response_into_bubbles resp strategy_roll target_size) (s1 + 1))

/-! ## Conversation room and connection manager (`websocket.py`) -/

/-- Outbound event kinds (`websocket.py:WSMessageType`, server side). -/
inductive WSMessageType
  | message
  | thinker_typing
  | thinker_thinking
  | thinker_stopped_typing
  | user_joined
  | user_left
  | paused
  | resumed
  | speed_changed
  | error
deriving DecidableEq

/-- The fields of `websocket.py:WSMessage` that the verified operations
populate. -/
structure WSMsg where
  type : WSMessageType
  conversation_id : Option String := none
  content : Option String := none
  sender_name : Option String := none
  speed_multiplier : Option ℚ := none
deriving DecidableEq

/-- Embedding of `websocket.py:ConversationRoom` (lines 67-101).  Connections are
identified by numbers; `is_active` is stored, not derived, exactly as in
the dataclass. -/
structure ConversationRoom where
  conversation_id : String
  connections : Finset ℕ
  is_active : Bool
  typing_thinkers : Finset String
  speed_multiplier : ℚ

/-- A freshly constructed room (the dataclass field defaults). -/
def initConversationRoom (cid : String) : ConversationRoom :=
  ⟨cid, ∅, false, ∅, 1⟩

/-- Embedding of `ConversationRoom.add_connection`. -/
def ConversationRoom.add_connection (r : ConversationRoom) (w : ℕ) : ConversationRoom :=
  { r with connections := insert w r.connections, is_active := true }

/-- Embedding of `ConversationRoom.remove_connection`. -/
def ConversationRoom.remove_connection (r : ConversationRoom) (w : ℕ) : ConversationRoom :=
  let c := r.connections.erase w
  { r with connections := c, is_active := if c = ∅ then false else r.is_active }

/-- Embedding of `ConversationRoom.broadcast` (lines 88-101).  Per-connection
delivery failure is modelled by the oracle set `fails`; every failing
send is caught, the connection is collected and afterwards discarded,
and the activity flag is cleared when the set becomes empty.  The
function is total: no failure escapes to the caller.  Returns the
updated room and the set of connections that accepted delivery. -/
def ConversationRoom.broadcast (r : ConversationRoom) (fails : Finset ℕ) :
    ConversationRoom × Finset ℕ :=
  let disconnected := r.connections ∩ fails
  let remaining := r.connections \ disconnected
  ({ r with connections := remaining,
            is_active := if remaining = ∅ then false else r.is_active },
   r.connections \ fails)

/-- Embedding of `websocket.py:ConnectionManager` (lines 104-211): the map from
conversation id to room.  A missing room corresponds to a conversation
no client has ever joined. -/
structure ConnectionManager where
  rooms : String → Option ConversationRoom

/-- Store a room under a conversation id. -/
def setRoom (m : ConnectionManager) (cid : String) (r : ConversationRoom) :
    ConnectionManager :=
  ⟨fun c => if c = cid then some r else m.rooms c⟩

/-- Embedding of `ConnectionManager.broadcast_to_conversation`: broadcast when the
room exists, otherwise do nothing.  Returns the manager together with
the broadcast record (message and delivered-to set) of each performed
room broadcast. -/
def broadcast_to_conversation (m : ConnectionManager) (cid : String) (msg : WSMsg)
    (fails : Finset ℕ) : ConnectionManager × List (WSMsg × Finset ℕ) :=
  match m.rooms cid with
  | none => (m, [])
  | some r =>
    let res := r.broadcast fails
    (setRoom m cid res.1, [(msg, res.2)])

/-- Embedding of `ConnectionManager.get_speed_multiplier` (lines 131-135). -/
def get_speed_multiplier (m : ConnectionManager) (cid : String) : ℚ :=
  match m.rooms cid with
  | some r => r.speed_multiplier
  | none => 1

/-- Embedding of `ConnectionManager.set_speed_multiplier` (lines 137-151): clamp the
request to `[0.5, 6.0]`, and when the room exists store the clamped
value and broadcast a speed-changed notification carrying it. -/
def set_speed_multiplier (m : ConnectionManager) (cid : String) (mult : ℚ)
    (fails : Finset ℕ) : ConnectionManager × List (WSMsg × Finset ℕ) :=
  let clamped := max (1/2 : ℚ) (min 6 mult)
  match m.rooms cid with
  | none => (m, [])
  | some r =>
    let m1 := setRoom m cid { r with speed_multiplier := clamped }
    broadcast_to_conversation m1 cid
      { type := WSMessageType.speed_changed, conversation_id := some cid,
        speed_multiplier := some clamped } fails

/-- Embedding of `ConnectionManager.send_thinker_typing` (lines 179-188): add the
thinker to the typing set when the room exists, then broadcast a
thinker-typing notification. -/
def send_thinker_typing (m : ConnectionManager) (cid name : String)
    (fails : Finset ℕ) : ConnectionManager × List (WSMsg × Finset ℕ) :=
  let m1 :=
    match m.rooms cid with
    | some r => setRoom m cid { r with typing_thinkers := insert name r.typing_thinkers }
    | none => m
  broadcast_to_conversation m1 cid
    { type := WSMessageType.thinker_typing, conversation_id := some cid,
      sender_name := some name } fails

/-- Embedding of `ConnectionManager.send_thinker_stopped_typing` (lines 202-211):
discard the thinker from the typing set (a no-op when absent), then
broadcast a stopped-typing notification. -/
def send_thinker_stopped_typing (m : ConnectionManager) (cid name : String)
    (fails : Finset ℕ) : ConnectionManager × List (WSMsg × Finset ℕ) :=
  let m1 :=
    match m.rooms cid with
    | some r => setRoom m cid { r with typing_thinkers := r.typing_thinkers.erase name }
    | none => m
  broadcast_to_conversation m1 cid
    { type := WSMessageType.thinker_stopped_typing, conversation_id := some cid,
      sender_name := some name } fails

/-- The stored-versus-derived activity invariant of a room. -/
def roomInv (r : ConversationRoom) : Prop :=
  r.is_active = true ↔ r.connections ≠ ∅

/-! ## Agent lifecycle (`thinker.py:ThinkerService`, lines 813-868) -/

/-- What `await task` yields for a task that was just sent `cancel()`:
it terminated normally, it terminated by `CancelledError`, or awaiting
it raised some other exception. -/
inductive AwaitResult
  | completed
  | cancelledError
  | raised (msg : String)
deriving DecidableEq

/-- Did awaiting the task raise something other than `CancelledError`? -/
def isRaised : AwaitResult → Bool
  | .raised _ => true
  | _ => false

/-- The in-memory state of `ThinkerService`: the per-conversation task
map `_active_tasks` (each task paired with what awaiting it yields) and
the `_paused_conversations` set. -/
structure ThinkerService where
  active_tasks : String → Option (List (String × AwaitResult))
  paused_conversations : String → Bool

/-- Embedding of `ThinkerService.is_paused`. -/
def is_paused (svc : ThinkerService) (cid : String) : Bool :=
  svc.paused_conversations cid

/-- Embedding of `ThinkerService.pause_conversation`. -/
def pause_conversation (svc : ThinkerService) (cid : String) : ThinkerService :=
  { svc with paused_conversations := fun c => if c = cid then true else svc.paused_conversations c }

/-- Embedding of `ThinkerService.resume_conversation`. -/
def resume_conversation (svc : ThinkerService) (cid : String) : ThinkerService :=
  { svc with paused_conversations := fun c => if c = cid then false else svc.paused_conversations c }

/-- The loop body of `stop_conversation_agents`: for each task in order,
call `cancel()` and await it inside `contextlib.suppress(CancelledError)`.
A normal or cancelled termination is processed and the loop continues;
any other exception escapes the loop immediately.  Returns the ids of
the tasks that were cancelled and awaited, and the escaping exception
if any. -/
def stopTasksLoop : List (String × AwaitResult) → List String × Option String
  | [] => ([], none)
  | t :: rest =>
    match t.2 with
    | .raised m => ([t.1], some m)
    | _ =>
      let r := stopTasksLoop rest
      (t.1 :: r.1, r.2)

/-- Embedding of `ThinkerService.stop_conversation_agents` (`thinker.py`,
lines 846-856): cancel and await every task of the conversation, then
delete the conversation's entry from `_active_tasks`; the paused set is
deliberately left untouched.  If awaiting a task raises anything but
`CancelledError` the exception propagates and the deletion does not
happen.  Returns the new state, the processed task ids, and the
propagated exception if any. -/
def stop_conversation_agents (svc : ThinkerService) (cid : String) :
    ThinkerService × List String × Option String :=
  match svc.active_tasks cid with
  | none => (svc, [], none)
  | some tasks =>
    let r := stopTasksLoop tasks
    match r.2 with
    | none =>
      (⟨fun c => if c = cid then none else svc.active_tasks c, svc.paused_conversations⟩,
       r.1, none)
    | some m => (svc, r.1, some m)

/-- Embedding of `ThinkerService.start_conversation_agents` (`thinker.py`,
lines 813-844): stop any existing agents for the conversation first,
then register one task per thinker.  If stopping raised, the exception
propagates and no new tasks are registered. -/
def start_conversation_agents (svc : ThinkerService) (cid : String)
    (tasks : List (String × AwaitResult)) : ThinkerService × Option String :=
  match svc.active_tasks cid with
  | some _ =>
    let r := stop_conversation_agents svc cid
    match r.2.2 with
    | some m => (r.1, some m)
    | none =>
      (⟨fun c => if c = cid then some tasks else r.1.active_tasks c,
        r.1.paused_conversations⟩, none)
  | none =>
    (⟨fun c => if c = cid then some tasks else svc.active_tasks c,
      svc.paused_conversations⟩, none)

/-- The pause-state handshake of `websocket_endpoint` (`websocket.py`,
lines 292-299): a newly connected client of a paused conversation is
sent a paused notification. -/
def pauseNoticeOnConnect (svc : ThinkerService) (cid : String) : Option WSMsg :=
  if is_paused svc cid then
    some { type := WSMessageType.paused, conversation_id := some cid }
  else none

/-! ## Concrete states used by witnesses and counterexamples -/

/-- A service whose only conversation holds a task whose await raises a
`ValueError` followed by one that terminates by `CancelledError`. -/
def svcRaising : ThinkerService :=
  ⟨fun c => if c = "c" then
      some [("a", AwaitResult.raised "ValueError"), ("b", AwaitResult.cancelledError)]
    else none,
   fun _ => false⟩

/-- A service whose only conversation holds two well-behaved tasks. -/
def svcClean : ThinkerService :=
  ⟨fun c => if c = "c" then
      some [("a", AwaitResult.completed), ("b", AwaitResult.cancelledError)]
    else none,
   fun _ => false⟩

/-- A paused service with one registered task, used to check that a
pause survives an agent stop/start cycle. -/
def svcPaused : ThinkerService :=
  ⟨fun c => if c = "c1" then some [("t", AwaitResult.completed)] else none,
   fun c => c == "c1"⟩

/-- A concrete room with one live connection. -/
def roomOne : ConversationRoom :=
  ⟨"c", {1}, true, ∅, 1⟩

/-- A manager holding `roomOne` under conversation id `"c"`. -/
def mgrOne : ConnectionManager :=
  ⟨fun c => if c = "c" then some roomOne else none⟩

/-- A manager with no rooms at all. -/
def mgrEmpty : ConnectionManager :=
  ⟨fun _ => none⟩

/-! ## Helper lemmas -/

theorem length_dropWhile_le_chars (p : Char → Bool) :
    ∀ l : List Char, (l.dropWhile p).length ≤ l.length := by
  intro l
  induction l with
  | nil => simp [List.dropWhile]
  | cons c rest ih =>
    by_cases h : p c
    all_goals simp [List.dropWhile_cons, h]
    all_goals omega

theorem pyStrip_length_le (s : String) : (pyStrip s).length ≤ s.length := by
  show (((s.data.dropWhile pyIsSpace).reverse.dropWhile pyIsSpace).reverse).length
      ≤ s.data.length
  rw [List.length_reverse]
  calc ((s.data.dropWhile pyIsSpace).reverse.dropWhile pyIsSpace).length
      ≤ (s.data.dropWhile pyIsSpace).reverse.length :=
        length_dropWhile_le_chars _ _
    _ = (s.data.dropWhile pyIsSpace).length := List.length_reverse _
    _ ≤ s.data.length := length_dropWhile_le_chars _ _

/-! ## C1: the selection policy matches its reference definition -/

/-- C1.  `_should_respond` agrees with the reference definition written
from the specification: false on an empty history or when no new
messages exist, and otherwise the decision is made by the two draws
against the probability `min(0.25 + new * 0.12, 0.7)` boosted by `+0.5`
(cap `0.95`) when addressed in the last three messages, boosted by
`consecutive_silence * 0.1` (cap `0.9`) when the silence counter exceeds
2, forced to `0.05` on an immediate self-reply, with a 15% forced
silence unless addressed. -/
theorem should_respond_matches_ref (thinkerName : String) (messages : List Message)
    (last_response_count : ℤ) (consecutive_silence : ℕ) (d1 d2 : ℚ) :
    should_respond thinkerName messages last_response_count consecutive_silence d1 d2
      = should_respond_ref thinkerName messages last_response_count consecutive_silence d1 d2 := by
  unfold should_respond should_respond_ref
  by_cases h1 : messages.isEmpty
  all_goals by_cases h2 : (messages.length : ℤ) - last_response_count ≤ 0
  all_goals simp [h1, h2]

/-! ## C6: bubble splitting of short strings -/

/-- C6, counterexample.  The empty string is shorter than 60 characters,
yet `_split_response_into_bubbles` returns no bubble at all for it
rather than exactly one bubble equal to the trimmed input. -/
theorem split_short_counterexample :
    ("" : String).length < 60
    ∧ split_response_into_bubbles "" 0 0 = []
    ∧ split_response_into_bubbles "" 0 0 ≠ [pyStrip ""] := by
  refine ⟨by decide, by decide, by decide⟩

/-- C6, amended.  For every nonempty input string shorter than 60
characters, `_split_response_into_bubbles` returns exactly one bubble
equal to the input after trimming (the empty string instead yields no
bubbles). -/
theorem split_short_single_bubble (s : String) (strategy_roll : ℚ) (target_size : ℕ)
    (hne : s ≠ "") (hlen : s.length < 60) :
    split_response_into_bubbles s strategy_roll target_size = [pyStrip s] := by
  have h : (pyStrip s).length < 60 := lt_of_le_of_lt (pyStrip_length_le s) hlen
  simp [split_response_into_bubbles, hne, h]

/-- C6, witness. -/
theorem split_short_single_bubble_witness :
    split_response_into_bubbles "hi" 0 0 = [pyStrip "hi"] :=
  split_short_single_bubble "hi" 0 0 (by decide) (by decide)

/-! ## C3: room activity is derived from the connection set -/

/-- C3.  The invariant `is_active ↔ connections nonempty` holds for a
fresh room and is preserved by `add_connection`, `remove_connection`
and the eviction performed by `broadcast`; adding a connection to an
empty room activates it and removing the last connection deactivates
it. -/
theorem room_activity_derived (cid : String) (r : ConversationRoom) (w : ℕ)
    (fails : Finset ℕ) (hinv : roomInv r) :
    roomInv (initConversationRoom cid)
    ∧ roomInv (r.add_connection w)
    ∧ roomInv (r.remove_connection w)
    ∧ roomInv (r.broadcast fails).1
    ∧ (r.connections = ∅ → (r.add_connection w).is_active = true)
    ∧ (r.connections = {w} → (r.remove_connection w).is_active = false) := by
  refine ⟨?_, ?_, ?_, ?_, ?_, ?_⟩
  · simp [roomInv, initConversationRoom]
  · have hne := Finset.insert_ne_empty w r.connections
    simp [roomInv, ConversationRoom.add_connection, hne]
  · by_cases hc : r.connections.erase w = ∅
    · simp [roomInv, ConversationRoom.remove_connection, hc]
    · have hne : r.connections ≠ ∅ := by
        intro h0
        exact hc (by rw [h0]; exact Finset.erase_empty w)
      have hact := hinv.mpr hne
      simp [roomInv, ConversationRoom.remove_connection, hc, hact]
  · by_cases hc : r.connections ⊆ fails
    · have h1 : (r.broadcast fails).1.connections = ∅ := by
        simp [ConversationRoom.broadcast, Finset.sdiff_inter_self_left,
          Finset.sdiff_eq_empty_iff_subset, hc]
      have h2 : (r.broadcast fails).1.is_active = false := by
        simp [ConversationRoom.broadcast, Finset.sdiff_inter_self_left,
          Finset.sdiff_eq_empty_iff_subset, hc]
      unfold roomInv
      rw [h1, h2]
      simp
    · have h1 : (r.broadcast fails).1.connections ≠ ∅ := by
        simp [ConversationRoom.broadcast, Finset.sdiff_inter_self_left,
          Finset.sdiff_eq_empty_iff_subset, hc]
      have h2 : (r.broadcast fails).1.is_active = r.is_active := by
        simp [ConversationRoom.broadcast, Finset.sdiff_inter_self_left,
          Finset.sdiff_eq_empty_iff_subset, hc]
      have hne : r.connections ≠ ∅ := by
        intro h0
        exact hc (by rw [h0]; exact Finset.empty_subset fails)
      unfold roomInv
      rw [h2]
      simp [h1, hinv.mpr hne]
  · intro _
    simp [ConversationRoom.add_connection]
  · intro h
    simp [ConversationRoom.remove_connection, h, Finset.erase_singleton]

/-- C3, witness. -/
theorem room_activity_derived_witness :
    roomInv (ConversationRoom.add_connection roomOne 2) :=
  (room_activity_derived "c" roomOne 2 ∅ (by simp [roomInv, roomOne])).2.1

/-! ## C5: broadcast is total, evicts failures, keeps the rest -/

/-- C5.  `ConversationRoom.broadcast` is a total operation (every
per-connection failure is caught inside it): it delivers to exactly the
connections whose send does not fail, evicts exactly the failing ones,
leaves the delivered connections (and all other room fields) in place,
and only clears the activity flag when the connection set becomes
empty. -/
theorem broadcast_total_evicts (r : ConversationRoom) (fails : Finset ℕ) :
    (r.broadcast fails).2 = r.connections \ fails
    ∧ (r.broadcast fails).1.connections = r.connections \ fails
    ∧ (r.broadcast fails).1.typing_thinkers = r.typing_thinkers
    ∧ (r.broadcast fails).1.speed_multiplier = r.speed_multiplier
    ∧ (r.broadcast fails).1.conversation_id = r.conversation_id
    ∧ ((r.broadcast fails).1.connections ≠ ∅ → (r.broadcast fails).1.is_active = r.is_active)
    ∧ ((r.broadcast fails).1.connections = ∅ → (r.broadcast fails).1.is_active = false) := by
  refine ⟨rfl, ?_, rfl, rfl, rfl, ?_, ?_⟩
  · simp [ConversationRoom.broadcast, Finset.sdiff_inter_self_left]
  · intro hne
    by_cases hc : r.connections ⊆ fails
    · exact absurd (by
        simp [ConversationRoom.broadcast, Finset.sdiff_inter_self_left,
          Finset.sdiff_eq_empty_iff_subset, hc]) hne
    · simp [ConversationRoom.broadcast, Finset.sdiff_inter_self_left,
        Finset.sdiff_eq_empty_iff_subset, hc]
  · intro he
    have hc : r.connections ⊆ fails := by
      simpa [ConversationRoom.broadcast, Finset.sdiff_inter_self_left,
        Finset.sdiff_eq_empty_iff_subset] using he
    simp [ConversationRoom.broadcast, Finset.sdiff_inter_self_left,
      Finset.sdiff_eq_empty_iff_subset, hc]

/-! ## C4: stopping agents -/

theorem stopTasksLoop_clean :
    ∀ tasks : List (String × AwaitResult),
      (∀ p ∈ tasks, isRaised p.2 = false) →
      stopTasksLoop tasks = (tasks.map Prod.fst, none) := by
  intro tasks
  induction tasks with
  | nil => intro _; simp [stopTasksLoop]
  | cons t rest ih =>
    intro hok
    have h1 : isRaised t.2 = false := hok t (by simp)
    have h2 := ih (fun p hp => hok p (List.mem_cons_of_mem _ hp))
    cases ht2 : t.2 with
    | raised m => rw [ht2] at h1; simp [isRaised] at h1
    | completed => simp [stopTasksLoop, ht2, h2]
    | cancelledError => simp [stopTasksLoop, ht2, h2]

/-- C4, counterexample.  Stopping a conversation whose first task's
await raises a `ValueError` re-raises that exception out of
`stop_conversation_agents` (only `CancelledError` is suppressed), the
second task is never cancelled or awaited, and the conversation's entry
stays in the task map. -/
theorem stop_reraises_counterexample :
    (stop_conversation_agents svcRaising "c").2.2 = some "ValueError"
    ∧ (stop_conversation_agents svcRaising "c").2.2 ≠ none
    ∧ (stop_conversation_agents svcRaising "c").2.1 = ["a"]
    ∧ (stop_conversation_agents svcRaising "c").1.active_tasks "c" ≠ none := by
  refine ⟨by decide, by decide, by decide, by decide⟩

/-- C4, amended.  When awaiting each cancelled task terminates normally
or with `CancelledError`, `stop_conversation_agents` cancels and awaits
every registered task before returning, swallows the `CancelledError`s,
reports no exception, and removes the conversation's task entry.  An
exception other than `CancelledError` raised while awaiting a task
propagates out of the stop routine instead of being swallowed. -/
theorem stop_awaits_all_swallows_cancel (svc : ThinkerService) (cid : String)
    (tasks : List (String × AwaitResult))
    (ht : svc.active_tasks cid = some tasks)
    (hok : ∀ p ∈ tasks, isRaised p.2 = false) :
    (stop_conversation_agents svc cid).2.1 = tasks.map Prod.fst
    ∧ (stop_conversation_agents svc cid).2.2 = none
    ∧ (stop_conversation_agents svc cid).1.active_tasks cid = none := by
  have hloop := stopTasksLoop_clean tasks hok
  refine ⟨?_, ?_, ?_⟩ <;> simp [stop_conversation_agents, ht, hloop]

/-- C4, witness. -/
theorem stop_awaits_all_swallows_cancel_witness :
    (stop_conversation_agents svcClean "c").2.1 = ["a", "b"]
    ∧ (stop_conversation_agents svcClean "c").2.2 = none
    ∧ (stop_conversation_agents svcClean "c").1.active_tasks "c" = none := by
  have h := stop_awaits_all_swallows_cancel svcClean "c"
    [("a", AwaitResult.completed), ("b", AwaitResult.cancelledError)]
    (by decide) (by decide)
  exact ⟨h.1, h.2.1, h.2.2⟩

/-! ## C7: stopping agents does not touch the paused set -/

theorem stop_preserves_paused_fun (svc : ThinkerService) (cid : String) :
    (stop_conversation_agents svc cid).1.paused_conversations
      = svc.paused_conversations := by
  cases h : svc.active_tasks cid with
  | none => simp [stop_conversation_agents, h]
  | some tasks =>
    cases h2 : (stopTasksLoop tasks).2 with
    | none => simp [stop_conversation_agents, h, h2]
    | some m => simp [stop_conversation_agents, h, h2]

theorem start_preserves_paused_fun (svc : ThinkerService) (cid : String)
    (tasks : List (String × AwaitResult)) :
    (start_conversation_agents svc cid tasks).1.paused_conversations
      = svc.paused_conversations := by
  cases h : svc.active_tasks cid with
  | none => simp [start_conversation_agents, h]
  | some old =>
    cases h2 : (stop_conversation_agents svc cid).2.2 with
    | none => simp [start_conversation_agents, h, h2, stop_preserves_paused_fun]
    | some m => simp [start_conversation_agents, h, h2, stop_preserves_paused_fun]

/-- C7.  `stop_conversation_agents` leaves the paused-conversations set
untouched, a pause therefore survives a stop/restart cycle of the
agents, and a client that reconnects to a paused conversation is sent
the paused notification by the websocket connect handshake. -/
theorem stop_preserves_pause (svc : ThinkerService) (cid cid' : String)
    (tasks : List (String × AwaitResult))
    (hp : svc.paused_conversations cid' = true) :
    (stop_conversation_agents svc cid).1.paused_conversations = svc.paused_conversations
    ∧ (start_conversation_agents (stop_conversation_agents svc cid).1 cid
        tasks).1.paused_conversations = svc.paused_conversations
    ∧ pauseNoticeOnConnect
        (start_conversation_agents (stop_conversation_agents svc cid).1 cid tasks).1 cid'
        = some { type := WSMessageType.paused, conversation_id := some cid' } := by
  have h1 := stop_preserves_paused_fun svc cid
  have h2 := start_preserves_paused_fun (stop_conversation_agents svc cid).1 cid tasks
  refine ⟨h1, by rw [h2, h1], ?_⟩
  unfold pauseNoticeOnConnect is_paused
  rw [h2, h1, hp]
  simp

/-- C7, witness. -/
theorem stop_preserves_pause_witness :
    pauseNoticeOnConnect
      (start_conversation_agents (stop_conversation_agents svcPaused "c1").1 "c1"
        [("t", AwaitResult.completed)]).1 "c1"
      = some { type := WSMessageType.paused, conversation_id := some "c1" } :=
  (stop_preserves_pause svcPaused "c1" "c1" [("t", AwaitResult.completed)] (by decide)).2.2

/-! ## C8: typing notifications -/

/-- C8.  Two consecutive `send_thinker_typing` calls for the same
thinker leave the room's typing set with exactly one entry for that
thinker while each call broadcasts its own thinker-typing notification
(two in total), and `send_thinker_stopped_typing` for a thinker that is
not in the typing set completes normally, leaves the typing set
unchanged, and still broadcasts its stopped-typing notification. -/
theorem typing_state_idempotent_notify_twice
    (m : ConnectionManager) (cid name name2 : String) (r : ConversationRoom)
    (f1 f2 f3 : Finset ℕ)
    (hr : m.rooms cid = some r) (h2 : name2 ∉ r.typing_thinkers) :
    (((send_thinker_typing (send_thinker_typing m cid name f1).1 cid name f2).1.rooms cid).map
        ConversationRoom.typing_thinkers = some (insert name r.typing_thinkers))
    ∧ (Finset.filter (fun x => x = name) (insert name r.typing_thinkers) = {name})
    ∧ ((send_thinker_typing m cid name f1).2.map (fun ev => ev.1.type)
        = [WSMessageType.thinker_typing])
    ∧ ((send_thinker_typing (send_thinker_typing m cid name f1).1 cid name f2).2.map
        (fun ev => ev.1.type) = [WSMessageType.thinker_typing])
    ∧ (((send_thinker_stopped_typing m cid name2 f3).1.rooms cid).map
        ConversationRoom.typing_thinkers = some r.typing_thinkers)
    ∧ ((send_thinker_stopped_typing m cid name2 f3).2.map (fun ev => ev.1.type)
        = [WSMessageType.thinker_stopped_typing]) := by
  refine ⟨?_, ?_, ?_, ?_, ?_, ?_⟩
  · simp [send_thinker_typing, broadcast_to_conversation, setRoom,
      ConversationRoom.broadcast, hr, Finset.insert_idem]
  · ext x
    simp only [Finset.mem_filter, Finset.mem_insert, Finset.mem_singleton]
    tauto
  · simp [send_thinker_typing, broadcast_to_conversation, setRoom,
      ConversationRoom.broadcast, hr]
  · simp [send_thinker_typing, broadcast_to_conversation, setRoom,
      ConversationRoom.broadcast, hr]
  · simp [send_thinker_stopped_typing, broadcast_to_conversation, setRoom,
      ConversationRoom.broadcast, hr, Finset.erase_eq_of_not_mem h2]
  · simp [send_thinker_stopped_typing, broadcast_to_conversation, setRoom,
      ConversationRoom.broadcast, hr]

/-- C8, witness. -/
theorem typing_state_idempotent_notify_twice_witness :
    (((send_thinker_typing (send_thinker_typing mgrOne "c" "Kant" ∅).1 "c" "Kant" ∅).1.rooms
        "c").map ConversationRoom.typing_thinkers = some (insert "Kant" roomOne.typing_thinkers))
    ∧ (((send_thinker_stopped_typing mgrOne "c" "Hume" ∅).1.rooms "c").map
        ConversationRoom.typing_thinkers = some roomOne.typing_thinkers) := by
  have h := typing_state_idempotent_notify_twice mgrOne "c" "Kant" "Hume" roomOne ∅ ∅ ∅
    rfl (by simp [roomOne])
  exact ⟨h.1, h.2.2.2.2.1⟩

/-! ## C9: speed setting clamps and notifies -/

/-- C9.  For every requested multiplier, `set_speed_multiplier` on an
existing room stores the value clamped to `[0.5, 6.0]` and broadcasts
exactly one speed-changed notification carrying the clamped value,
attempted on every connection of the room (delivered to all whose send
does not fail). -/
theorem set_speed_clamps (m : ConnectionManager) (cid : String) (x : ℚ)
    (fails : Finset ℕ) (r : ConversationRoom) (hr : m.rooms cid = some r) :
    (((set_speed_multiplier m cid x fails).1.rooms cid).map ConversationRoom.speed_multiplier
        = some (max (1/2 : ℚ) (min 6 x)))
    ∧ ((set_speed_multiplier m cid x fails).2.map (fun ev => ev.1.type)
        = [WSMessageType.speed_changed])
    ∧ ((set_speed_multiplier m cid x fails).2.map (fun ev => ev.1.speed_multiplier)
        = [some (max (1/2 : ℚ) (min 6 x))])
    ∧ ((set_speed_multiplier m cid x fails).2.map (fun ev => ev.2)
        = [r.connections \ fails])
    ∧ (1/2 : ℚ) ≤ max (1/2 : ℚ) (min 6 x)
    ∧ max (1/2 : ℚ) (min 6 x) ≤ 6 := by
  refine ⟨?_, ?_, ?_, ?_, le_max_left _ _, max_le (by norm_num) (min_le_left _ _)⟩
  · simp [set_speed_multiplier, broadcast_to_conversation, setRoom,
      ConversationRoom.broadcast, hr]
  · simp [set_speed_multiplier, broadcast_to_conversation, setRoom,
      ConversationRoom.broadcast, hr]
  · simp [set_speed_multiplier, broadcast_to_conversation, setRoom,
      ConversationRoom.broadcast, hr]
  · simp [set_speed_multiplier, broadcast_to_conversation, setRoom,
      ConversationRoom.broadcast, hr]

/-- C9, witness: requesting `0.1` stores `0.5` and requesting `99`
stores `6`. -/
theorem set_speed_clamps_witness :
    (((set_speed_multiplier mgrOne "c" (1/10) ∅).1.rooms "c").map
        ConversationRoom.speed_multiplier = some (1/2 : ℚ))
    ∧ (((set_speed_multiplier mgrOne "c" 99 ∅).1.rooms "c").map
        ConversationRoom.speed_multiplier = some (6 : ℚ)) := by
  constructor
  · have h := (set_speed_clamps mgrOne "c" (1/10) ∅ roomOne rfl).1
    rw [h]
    norm_num
  · have h := (set_speed_clamps mgrOne "c" 99 ∅ roomOne rfl).1
    rw [h]
    norm_num

/-! ## C10: conversations without a room -/

/-- C10.  For a conversation id with no room, `get_speed_multiplier`
returns the default `1.0`, and `set_speed_multiplier` changes no state
and broadcasts nothing — the clamped value is discarded, so the speed
read afterwards is still the `1.0` default. -/
theorem no_room_speed_default (m : ConnectionManager) (cid : String) (x : ℚ)
    (fails : Finset ℕ) (h : m.rooms cid = none) :
    get_speed_multiplier m cid = 1
    ∧ set_speed_multiplier m cid x fails = (m, [])
    ∧ get_speed_multiplier (set_speed_multiplier m cid x fails).1 cid = 1 := by
  refine ⟨?_, ?_, ?_⟩ <;> simp [get_speed_multiplier, set_speed_multiplier, h]

/-- C10, witness. -/
theorem no_room_speed_default_witness :
    get_speed_multiplier mgrEmpty "never" = 1
    ∧ set_speed_multiplier mgrEmpty "never" 99 ∅ = (mgrEmpty, [])
    ∧ get_speed_multiplier (set_speed_multiplier mgrEmpty "never" 99 ∅).1 "never" = 1 :=
  no_room_speed_default mgrEmpty "never" 99 ∅ rfl

/-! ## C2: pausing blocks all further content of an in-flight turn -/

theorem runStream_content (pauseAt emitOk : ℕ → Bool) (extract : String → String) :
    ∀ (events : List StreamEvent) (step : ℕ) (pd : Bool) (think resp : String)
      (t : ℕ) (e : Ev),
      (t, e) ∈ (runStream pauseAt emitOk extract events step pd think resp).1 →
      isContentEv e = true → pauseAt t = false := by
  intro events
  induction events with
  | nil =>
    intro step pd think resp t e hmem _
    simp [runStream] at hmem
  | cons ev rest ih =>
    intro step pd think resp t e hmem hc
    simp only [runStream] at hmem
    cases hp : pauseAt step with
    | true =>
      simp only [hp, if_true] at hmem
      rcases List.mem_append.mp hmem with h | h
      · cases pd with
        | true => simp at h
        | false =>
          simp at h
          rw [h.2] at hc
          simp [isContentEv] at hc
      · exact ih _ _ _ _ _ _ h hc
    | false =>
      simp only [hp, Bool.false_eq_true, if_false] at hmem
      cases ev with
      | thinkingDelta s =>
        rcases List.mem_append.mp hmem with h | h
        · by_cases he : emitOk step
          · by_cases hx : extract (think ++ s) = ""
            · simp [he, hx] at h
            · simp [he, hx] at h
              rw [h.1]
              exact hp
          · simp [he] at h
        · exact ih _ _ _ _ _ _ h hc
      | textDelta s =>
        exact ih _ _ _ _ _ _ hmem hc

theorem runBubbles_content (pauseAt : ℕ → Bool) :
    ∀ (bubbles : List String) (step t : ℕ) (e : Ev),
      (t, e) ∈ runBubbles pauseAt bubbles step →
      isContentEv e = true → pauseAt t = false := by
  intro bubbles
  induction bubbles with
  | nil =>
    intro step t e hmem _
    simp [runBubbles] at hmem
  | cons b rest ih =>
    intro step t e hmem hc
    simp only [runBubbles] at hmem
    cases hp : pauseAt step with
    | true =>
      simp only [hp, if_true] at hmem
      simp at hmem
      rw [hmem.2] at hc
      simp [isContentEv] at hc
    | false =>
      simp only [hp, Bool.false_eq_true, if_false] at hmem
      rcases List.mem_cons.mp hmem with h | hmem2
      · have ht : t = step := by
          simpa using congrArg Prod.fst h
        rw [ht]
        exact hp
      · cases hp2 : pauseAt (step + 1) with
        | true =>
          simp only [hp2, if_true] at hmem2
          simp at hmem2
          rw [hmem2.2] at hc
          simp [isContentEv] at hc
        | false =>
          simp only [hp2, Bool.false_eq_true, if_false] at hmem2
          rcases List.mem_append.mp hmem2 with h | h
          · rcases List.mem_append.mp h with h' | h'
            · simp at h'
              rcases h' with ⟨ht, he⟩ | ⟨ht, he⟩
              · rw [he] at hc
                simp [isContentEv] at hc
              · rw [ht]
                exact hp2
            · cases hre : rest.isEmpty with
              | true => simp [hre] at h'
              | false =>
                simp [hre] at h'
                rw [h'.2] at hc
                simp [isContentEv] at hc
          · exact ih _ _ _ h hc

theorem runTurn_content (pauseAt emitOk : ℕ → Bool) (extract : String → String)
    (strategy_roll : ℚ) (target_size : ℕ) (events : List StreamEvent) (t : ℕ) (e : Ev)
    (hmem : (t, e) ∈ runTurn pauseAt emitOk extract strategy_roll target_size events)
    (hc : isContentEv e = true) :
    pauseAt t = false := by
  unfold runTurn at hmem
  cases hp : pauseAt 0 with
  | true =>
    simp only [hp, if_true] at hmem
    simp at hmem
    rcases hmem with ⟨_, he⟩ | ⟨_, he⟩ <;> rw [he] at hc <;> simp [isContentEv] at hc
  | false =>
    simp only [hp, Bool.false_eq_true, if_false] at hmem
    rcases List.mem_cons.mp hmem with h | hmem2
    · have he : e = Ev.typing := by
        simpa using congrArg Prod.snd h
      rw [he] at hc
      simp [isContentEv] at hc
    · rcases List.mem_append.mp hmem2 with h | h
      · exact runStream_content pauseAt emitOk extract events 1 false "" "" t e h hc
      · cases hp1 : pauseAt (runStream pauseAt emitOk extract events 1 false "" "").2.2 with
        | true =>
          simp only [hp1, if_true] at h
          simp at h
          rw [h.2] at hc
          simp [isContentEv] at hc
        | false =>
          simp only [hp1, Bool.false_eq_true, if_false] at h
          by_cases hresp : pyStrip (runStream pauseAt emitOk extract events 1 false "" "").2.1 = ""
          · simp only [hresp, if_true] at h
            simp [hresp] at h
            rw [h.2] at hc
            simp [isContentEv] at hc
          · simp only [if_neg hresp] at h
            exact runBubbles_content pauseAt _ _ _ _ h hc

theorem runStream_consumes_all (pauseAt emitOk : ℕ → Bool) (extract : String → String) :
    ∀ (events : List StreamEvent) (step : ℕ) (pd : Bool) (think resp : String),
      (runStream pauseAt emitOk extract events step pd think resp).2.2
        = step + events.length := by
  intro events
  induction events with
  | nil =>
    intro step pd think resp
    simp [runStream]
  | cons ev rest ih =>
    intro step pd think resp
    simp only [runStream]
    cases hp : pauseAt step with
    | true =>
      simp only [hp, if_true]
      rw [ih]
      simp [Nat.add_assoc, Nat.add_comm 1 rest.length]
    | false =>
      simp only [hp, Bool.false_eq_true, if_false]
      cases ev with
      | thinkingDelta s =>
        simp only []
        rw [ih]
        simp [Nat.add_assoc, Nat.add_comm 1 rest.length]
      | textDelta s =>
        rw [ih]
        simp [Nat.add_assoc, Nat.add_comm 1 rest.length]

/-- C2.  Model the interleaved pause command by the value `pauseAt i`
the agent reads at its i-th pause check; once the flag is set it stays
set (`hmono`, with `pauseAt k = true` at the flip point `k`).  Then
every persistence call, message broadcast, and thinker-thinking
broadcast of the turn happens strictly before the flip point — nothing
is persisted or broadcast once paused — while the streaming loop still
consumes every stream event (its step counter advances over the whole
stream regardless of pausing). -/
theorem pause_blocks_turn_content (pauseAt emitOk : ℕ → Bool) (extract : String → String)
    (strategy_roll : ℚ) (target_size : ℕ) (events : List StreamEvent) (k t : ℕ) (e : Ev)
    (hmono : ∀ i j : ℕ, i ≤ j → pauseAt i = true → pauseAt j = true)
    (hk : pauseAt k = true)
    (hmem : (t, e) ∈ runTurn pauseAt emitOk extract strategy_roll target_size events)
    (hc : isContentEv e = true) :
    t < k
    ∧ (runStream pauseAt emitOk extract events 1 false "" "").2.2 = 1 + events.length := by
  have hf := runTurn_content pauseAt emitOk extract strategy_roll target_size events t e hmem hc
  constructor
  · by_contra hlt
    push_neg at hlt
    have := hmono k t hlt hk
    rw [hf] at this
    exact Bool.false_ne_true this
  · exact runStream_consumes_all pauseAt emitOk extract events 1 false "" ""

/-- C2, witness: with the flag flipping at check 10, the persisted
bubble of a short turn is emitted at check 3, before the flip. -/
theorem pause_blocks_turn_content_witness :
    ((3, Ev.persist "Hello.") ∈
      runTurn (fun i => decide (10 ≤ i)) (fun _ => false) (fun s => s) 0 0
        [StreamEvent.textDelta "Hello."])
    ∧ 3 < 10 := by
  refine ⟨by decide, ?_⟩
  have h := pause_blocks_turn_content (fun i => decide (10 ≤ i)) (fun _ => false)
    (fun s => s) 0 0 [StreamEvent.textDelta "Hello."] 10 3 (Ev.persist "Hello.")
    (by
      intro i j hij hi
      simp only [decide_eq_true_eq] at hi ⊢
      omega)
    (by decide) (by decide) (by decide)
  exact h.1

end ThinkersChat
